import Mathlib

/-!
Shallow embedding of the in-memory partition-table model and editor of the
Artixide installer (files `src/tui/data/partition.rs`,
`src/tui/data/partition/impls.rs`, `src/tui/views/partition/editor.rs`),
together with theorems settling the frozen claims about it.

Modelling conventions:
* Rust `u64`/`u16` values are modelled as `Nat`.  All LBA arithmetic in the
  source stays far below `2^64` for real devices, so wrap-around never
  matters for the properties considered here; Rust `saturating_sub`
  coincides with truncated `Nat` subtraction, and the remaining plain
  subtractions in the source are only ever executed on operands where the
  result is non-negative (underflow would be a Rust panic, which the
  embedding makes explicit via `Option` where a claim depends on it).
* The `*_string` caches of the Rust structs (`start_string`, `itoa`
  formatting, `format_size`) are pure presentation data derived from the
  numeric fields and are not modelled.
* Rust panics (`unwrap`, `assert!`, slice-index panics, irrefutable-match
  failures) are modelled by `Option`/explicit failure constructors.
* Rust `sort_unstable` on `Vec<u64>` is modelled by `List.insertionSort`:
  for a list of natural numbers every sorted permutation is equal, so the
  choice of algorithm is immaterial; likewise `sort_unstable_by_key` on
  regions keyed by `start`.
* Strings handed to the model (user size text) are modelled as `List Char`;
  `str::trim` becomes whitespace-trimming of the char list, and
  `str::parse::<u64>` becomes a digit-sequence parser.
* External collaborators (the `bytesize` crate's `ByteSize::from_str`, the
  GPT header reader) are parameters of the functions that call them.
-/

namespace Artixide

/-- `DEFAULT_ALIGN` from `src/tui/data/partition.rs`. -/
def DEFAULT_ALIGN : Nat := 2048

/-- `Disk` from `src/tui/data/partition.rs` (numeric/identity fields;
`size_string` is a presentation cache and is omitted). -/
structure Disk where
  model : String
  path : String
  id : String
  size : Nat
  sector_size : Nat
  starting_lba : Nat
  ending_lba : Nat
  is_gpt : Bool
deriving DecidableEq, Repr

/-- `RawDisk` from `src/tui/data/partition.rs`. -/
structure RawDisk where
  model : String
  path : String
  size : Nat
  sector_size : Nat
deriving DecidableEq, Repr

/-- `FileSystem` from `src/tui/data/partition.rs`. -/
inductive FileSystem where
  | Ext2 | Ext3 | Ext4 | Btrfs | Xfs | Swap | Fat16 | Fat32 | ExFat | Ntfs
  | Unknown
deriving DecidableEq, Repr

/-- strum `EnumString` parsing for `FileSystem` (lowercase serialization). -/
def FileSystem.from_str (s : String) : Option FileSystem :=
  if s = "ext2" then some .Ext2
  else if s = "ext3" then some .Ext3
  else if s = "ext4" then some .Ext4
  else if s = "btrfs" then some .Btrfs
  else if s = "xfs" then some .Xfs
  else if s = "swap" then some .Swap
  else if s = "fat16" then some .Fat16
  else if s = "fat32" then some .Fat32
  else if s = "exfat" then some .ExFat
  else if s = "ntfs" then some .Ntfs
  else none

/-- `MemPartition` from `src/tui/data/partition.rs` (string caches omitted). -/
structure MemPartition where
  number : Nat
  start : Nat
  «end» : Nat
  sectors : Nat
  size : Nat
  bootable : Bool := false
  filesystem : FileSystem := .Unknown
  label : Option String := none
  mountpoint : Option String := none
  uuid : Option String := none
deriving DecidableEq, Repr

/-- `DiskSpace` from `src/tui/data/partition.rs` (string caches omitted). -/
structure DiskSpace where
  start : Nat
  «end» : Nat
  sectors : Nat
  size : Nat
deriving DecidableEq, Repr

/-- `RawSpace` from `src/tui/data/partition.rs`. -/
structure RawSpace where
  start : Nat
  «end» : Nat
  sectors : Nat
  size : Nat
deriving DecidableEq, Repr

/-- `MemTableEntry` from `src/tui/data/partition.rs`. -/
inductive MemTableEntry where
  | Partition : MemPartition → MemTableEntry
  | Free : DiskSpace → MemTableEntry
deriving DecidableEq, Repr

/-- `NumberPool` from `src/tui/data/partition.rs`: `inner: Vec<bool>`. -/
structure NumberPool where
  inner : List Bool
deriving DecidableEq, Repr

/-- `CompatDevice` from `src/tui/data/partition.rs`.  The
`modification_map` field is carried but never consumed by any code path
relevant to the claims (the spec flags it as a dormant staging hook), so it
is modelled as the list of staged partition numbers only. -/
structure CompatDevice where
  disk : Disk
  mem_table : List MemTableEntry
  number_pool : NumberPool
  modification_map : List Nat := []
deriving DecidableEq, Repr

/-- `Device` from `src/tui/data/partition.rs`. -/
inductive Device where
  | Compatible : CompatDevice → Device
  | Incompatible : RawDisk → Device
deriving DecidableEq, Repr

/-- `MemPartition::as_raw_space`. -/
def MemPartition.as_raw_space (p : MemPartition) : RawSpace :=
  { start := p.start, «end» := p.«end», sectors := p.sectors, size := p.size }

/-- `DiskSpace::as_raw_space`. -/
def DiskSpace.as_raw_space (s : DiskSpace) : RawSpace :=
  { start := s.start, «end» := s.«end», sectors := s.sectors, size := s.size }

/-- `MemTableEntry::start`. -/
def MemTableEntry.start : MemTableEntry → Nat
  | .Free free => free.start
  | .Partition part => part.start

/-- Whether an entry is a `Partition` (the `matches!` test used by
`fill_free_space`'s `retain`). -/
def MemTableEntry.isPartition : MemTableEntry → Bool
  | .Partition _ => true
  | .Free _ => false

/-- `NumberPool::new`: 256 unused slots. -/
def NumberPool.new : NumberPool :=
  { inner := List.replicate 256 false }

/-- Scan of `NumberPool::find_available_num`: first `false` slot becomes
`true` and its 1-based number is returned. -/
def findAvailAux : List Bool → Option Nat × List Bool
  | [] => (none, [])
  | b :: rest =>
    if b then
      let r := findAvailAux rest
      (r.1.map (· + 1), b :: r.2)
    else
      (some 1, true :: rest)

/-- `NumberPool::find_available_num` (returns the allocated number and the
updated pool; the Rust method mutates `self` in place). -/
def NumberPool.find_available_num (p : NumberPool) : Option Nat × NumberPool :=
  let r := findAvailAux p.inner
  (r.1, { inner := r.2 })

/-- `NumberPool::set_used`; `none` models the Rust index-out-of-bounds
panic on `self.inner[index]`. -/
def NumberPool.set_used (p : NumberPool) (index : Nat) : Option NumberPool :=
  if index < p.inner.length then some { inner := p.inner.set index true } else none

/-- `NumberPool::set_unused`; `none` models the Rust index-out-of-bounds
panic on `self.inner[index]`. -/
def NumberPool.set_unused (p : NumberPool) (index : Nat) : Option NumberPool :=
  if index < p.inner.length then some { inner := p.inner.set index false } else none

/-- The partitions among a region list, in order (the
`filter_map(... Partition ...)` iterator of `fill_free_space`). -/
def partsOf (entries : List MemTableEntry) : List MemPartition :=
  entries.filterMap fun e =>
    match e with
    | .Partition part => some part
    | .Free _ => none

/-- `positions.chunks(2)` specialised to the even-length boundary list of
`fill_free_space` (a trailing odd element would be dropped by `filter_map`
over a 1-chunk in Rust only after failing the `chunk[1]` index; the boundary
list always has even length, so the `[]`/cons-nil cases are never hit with
a leftover). -/
def chunks2 : List Nat → List (Nat × Nat)
  | a :: b :: rest => (a, b) :: chunks2 rest
  | _ => []

/-- The body of the `filter_map` over boundary chunks in
`CompatDevice::fill_free_space`: raw gap size, alignment padding,
saturating trim, drop-if-empty, and the surviving `Free` region. -/
def gapFree (sector_size : Nat) (chunk : Nat × Nat) : Option DiskSpace :=
  let start := chunk.1
  let «end» := chunk.2
  let sectors := «end» - start - 1
  if sectors = 0 then none
  else
    let first_usable := start + 1
    let padding := (start / DEFAULT_ALIGN + 1) * DEFAULT_ALIGN - first_usable
    let sectors := sectors - padding
    if sectors = 0 then none
    else
      some { start := first_usable + padding
             «end» := «end» - 1
             sectors := sectors
             size := sectors * sector_size }

/-- The boundary-LBA list of `CompatDevice::fill_free_space`:
`starting_lba`, each partition's `(start, end)` pair, `ending_lba`. -/
def positionsOf (disk : Disk) (entries : List MemTableEntry) : List Nat :=
  disk.starting_lba ::
    ((partsOf entries).flatMap fun part => [part.start, part.«end»]) ++
      [disk.ending_lba]

/-- The freshly computed `Free` regions of `CompatDevice::fill_free_space`:
sort the boundary list, process consecutive pairs with `gapFree`. -/
def spacesOf (disk : Disk) (entries : List MemTableEntry) : List MemTableEntry :=
  (chunks2 (List.insertionSort (· ≤ ·) (positionsOf disk entries))).filterMap
    fun chunk => (gapFree disk.sector_size chunk).map MemTableEntry.Free

/-- `CompatDevice::fill_free_space`: drop all `Free` regions (`retain`),
append the recomputed ones (`extend`), and re-sort by `start` only if the
entry count changed. -/
def CompatDevice.fill_free_space (dev : CompatDevice) : CompatDevice :=
  let entries :=
    dev.mem_table.filter MemTableEntry.isPartition ++ spacesOf dev.disk dev.mem_table
  let entries :=
    if entries.length ≠ dev.mem_table.length then
      List.insertionSort (fun a b => a.start ≤ b.start) entries
    else entries
  { dev with mem_table := entries }

/-- `DiskSpace::expand_right`.  The Rust `assert!(val.start == self.end + 1)`
("Not a sibling space") is modelled by returning `none`. -/
def DiskSpace.expand_right (base : DiskSpace) (val : RawSpace) : Option DiskSpace :=
  if val.start = base.«end» + 1 then
    some { start := base.start, «end» := val.«end»,
           sectors := base.sectors + val.sectors, size := base.size + val.size }
  else none

/-- `DiskSpace::expand_left`.  The Rust assertion `val.end == self.start - 1`
is rendered as `val.end + 1 == self.start`, which is equivalent for
`self.start ≥ 1` (for `self.start = 0` the Rust subtraction itself panics
in debug builds, so the assertion can never be satisfied there either). -/
def DiskSpace.expand_left (base : DiskSpace) (val : RawSpace) : Option DiskSpace :=
  if val.«end» + 1 = base.start then
    some { start := val.start, «end» := base.«end»,
           sectors := base.sectors + val.sectors, size := base.size + val.size }
  else none

/-- The `map` applied to drained entries in `handle_delete`'s both-free case. -/
def MemTableEntry.as_raw_space : MemTableEntry → RawSpace
  | .Free space => space.as_raw_space
  | .Partition part => part.as_raw_space

/-- The entry at index `i` if it is a `Free` region. -/
def getFreeAt (entries : List MemTableEntry) (i : Nat) : Option DiskSpace :=
  match entries[i]? with
  | some (.Free space) => some space
  | _ => none

/-- The entry at index `i` if it is a `Partition`. -/
def getPartAt (entries : List MemTableEntry) (i : Nat) : Option MemPartition :=
  match entries[i]? with
  | some (.Partition part) => some part
  | _ => none

/-- The `matches!(dev.mem_table.get(i), Some(MemTableEntry::Free(_)))` test
of `handle_delete`. -/
def isFreeAt (entries : List MemTableEntry) (i : Nat) : Bool :=
  (getFreeAt entries i).isSome

/-- The `mem_table` surgery of `DiskEditor::handle_delete` (file
`src/tui/views/partition/editor.rs`), covering its four
`(is_prev_free, is_next_free)` cases; `none` models a Rust panic
(out-of-bounds `remove`/index, irrefutable-match failure, or an
`expand_left`/`expand_right` sibling assertion). -/
def deleteEntries (selected : Nat) (entries : List MemTableEntry) :
    Option (List MemTableEntry) :=
  let is_prev_free := decide (1 ≤ selected) && isFreeAt entries (selected - 1)
  let is_next_free :=
    decide (selected + 1 < entries.length) && isFreeAt entries (selected + 1)
  match is_prev_free, is_next_free with
  | true, true => do
    let e0 ← entries[selected]?
    let e1 ← entries[selected + 1]?
    let rest := entries.take selected ++ entries.drop (selected + 2)
    let base ← getFreeAt rest (selected - 1)
    let base ← base.expand_right e0.as_raw_space
    let base ← base.expand_right e1.as_raw_space
    pure (rest.set (selected - 1) (.Free base))
  | true, false => do
    let part ← getPartAt entries selected
    let rest := entries.eraseIdx selected
    let base ← getFreeAt rest (selected - 1)
    let base ← base.expand_right part.as_raw_space
    pure (rest.set (selected - 1) (.Free base))
  | false, true => do
    let part ← getPartAt entries selected
    let rest := entries.eraseIdx selected
    let base ← getFreeAt rest selected
    let base ← base.expand_left part.as_raw_space
    pure (rest.set selected (.Free base))
  | false, false => do
    let part ← getPartAt entries selected
    pure (entries.set selected
      (.Free { start := part.start, «end» := part.«end»,
               sectors := part.sectors, size := part.size }))

/-- `DiskEditor::handle_delete`: table surgery followed by
`dev.number_pool.set_unused(selected)` (note: the source passes the
*selected region index*, not `part.number - 1`). -/
def handle_delete (selected : Nat) (dev : CompatDevice) : Option CompatDevice := do
  let mem_table ← deleteEntries selected dev.mem_table
  let pool ← dev.number_pool.set_unused selected
  pure { dev with mem_table := mem_table, number_pool := pool }

/-- Whitespace trimming of a char list (`str::trim`). -/
def trimChars (cs : List Char) : List Char :=
  ((cs.dropWhile Char.isWhitespace).reverse.dropWhile Char.isWhitespace).reverse

/-- Accumulator pass of `parseU64?`. -/
def digitsToNat : List Char → Nat → Nat
  | [], acc => acc
  | c :: rest, acc => digitsToNat rest (acc * 10 + (c.toNat - 48))

/-- `str::parse::<u64>` on a char list, for the digit strings relevant here
(Rust additionally accepts a leading `+` and enforces the 64-bit bound;
neither affects any claim considered in this development). -/
def parseU64? (cs : List Char) : Option Nat :=
  if cs ≠ [] ∧ cs.all Char.isDigit then some (digitsToNat cs 0) else none

/-- Outcome tag of `DiskEditor::handle_create`: which user-facing error was
stored in `create_error`, whether the number pool was exhausted (the `?` on
`find_available_num`), or whether a Rust panic would occur. -/
inductive CreateOutcome where
  | ok
  | errParseSize
  | errInvalidSize
  | errOverSize
  | poolExhausted
  | panic
deriving DecidableEq, Repr

/-- The size-text resolution of `DiskEditor::handle_create` (lines
236–252) on the trimmed, nonempty, non-`"*"` input: a trailing `s`/`S`
makes the prefix a literal sector count (`str::parse::<u64>`); otherwise
the whole text is parsed as bytes by the external `ByteSize::from_str`
(here the parameter `parseByteSize`) and divided by the sector size. -/
def resolveSectors (parseByteSize : List Char → Option Nat)
    (sector_size : Nat) (input : List Char) : Option Nat :=
  match input.getLast? with
  | none => none
  | some c =>
    if c = 's' ∨ c = 'S' then parseU64? (trimChars input.dropLast)
    else (parseByteSize input).map (· / sector_size)

/-- The remainder-trimming block of `DiskEditor::handle_create`
(lines 306–330): alignment padding for the leftover free space after a
partial create, saturating trim, drop-if-empty.  `start` is
`partition.end + 1`, `«end»` is the original free region's end, `sectors0`
is the untrimmed remainder. -/
def remainderSpace (sector_size start «end» sectors0 : Nat) : Option DiskSpace :=
  let padding := ((start - 1) / DEFAULT_ALIGN + 1) * DEFAULT_ALIGN - start
  let sectors := sectors0 - padding
  if 0 < sectors then
    some { start := start + padding, «end» := «end»,
           sectors := sectors, size := sectors * sector_size }
  else none

/-- `DiskEditor::handle_create` on a device, given the trimmed-input parse
collaborator `parseByteSize` (the external `ByteSize::from_str`, returning
a byte count) and the raw user text.  Mirrors the source's order of
effects: parse, size checks (before any mutation), number allocation,
optional remainder insertion at `selected + 1`, then replacement of the
selected region. -/
def handle_create (parseByteSize : List Char → Option Nat)
    (input0 : List Char) (selected : Nat) (dev : CompatDevice) :
    CreateOutcome × CompatDevice :=
  match getFreeAt dev.mem_table selected with
  | none => (.panic, dev)
  | some space =>
    let sector_size := dev.disk.sector_size
    let input := trimChars input0
    if input = ['*'] then
      match dev.number_pool.find_available_num with
      | (none, _) => (.poolExhausted, dev)
      | (some number, pool) =>
        let part : MemPartition :=
          { number := number, start := space.start, «end» := space.«end»,
            sectors := space.sectors, size := space.size }
        (.ok, { dev with
                mem_table := dev.mem_table.set selected (.Partition part),
                number_pool := pool })
    else
      match input.getLast? with
      | none => (.panic, dev)
      | some _ =>
        match resolveSectors parseByteSize sector_size input with
        | none => (.errParseSize, dev)
        | some sectors =>
          let free_sectors := space.sectors
          if sectors = 0 then (.errInvalidSize, dev)
          else if free_sectors < sectors then (.errOverSize, dev)
          else
            let remaining := free_sectors - sectors
            match dev.number_pool.find_available_num with
            | (none, _) => (.poolExhausted, dev)
            | (some number, pool) =>
              let start := space.start
              if 0 < remaining then
                let pend := start + sectors - 1
                let part : MemPartition :=
                  { number := number, start := start, «end» := pend,
                    sectors := sectors, size := sectors * sector_size }
                let table :=
                  match remainderSpace sector_size (pend + 1) space.«end» remaining with
                  | some free =>
                    dev.mem_table.insertIdx (selected + 1) (MemTableEntry.Free free)
                  | none => dev.mem_table
                (.ok, { dev with
                        mem_table := table.set selected (.Partition part),
                        number_pool := pool })
              else
                let part : MemPartition :=
                  { number := number, start := start, «end» := space.«end»,
                    sectors := sectors, size := space.size }
                (.ok, { dev with
                        mem_table := dev.mem_table.set selected (.Partition part),
                        number_pool := pool })

/-- `ESP_GUID` from `src/tui/data/partition.rs`. -/
def ESP_GUID : String := "c12a7328-f81f-11d2-ba4b-00a0c93ec93b"

/-- `BOOT_FLAG` from `src/tui/data/partition.rs`. -/
def BOOT_FLAG : String := "0x80"

/-- `ChildBlockDevice` from `src/tui/data/partition.rs` (one lsblk child
record). -/
structure ChildBlockDevice where
  start : Nat
  size : Nat
  devtype : String
  partn : Nat
  partuuid : String
  parttype : String
  partflags : Option String := none
  label : Option String := none
  fstype : Option String := none
  mountpoint : Option String := none
deriving DecidableEq, Repr

/-- `BlockDevice` from `src/tui/data/partition.rs` (one lsblk device
record). -/
structure BlockDevice where
  size : Nat
  log_sec : Nat
  path : String
  devtype : String
  model : Option String := none
  pttype : Option String := none
  ptuuid : Option String := none
  children : Option (List ChildBlockDevice) := none
deriving DecidableEq, Repr

/-- `MemPartition::from_raw`. -/
def MemPartition.from_raw (dev : ChildBlockDevice) (sector_size : Nat)
    (is_gpt : Bool) : Option MemPartition :=
  if dev.devtype ≠ "part" then none
  else
    let bootable :=
      if is_gpt then dev.parttype = ESP_GUID else dev.partflags = some BOOT_FLAG
    let size := dev.size
    let sectors := size / sector_size
    some { number := dev.partn, start := dev.start,
           «end» := dev.start + sectors - 1, sectors := sectors, size := size,
           bootable := bootable,
           filesystem := (FileSystem.from_str (dev.fstype.getD "")).getD .Unknown,
           label := dev.label, mountpoint := none, uuid := some dev.partuuid }

/-- Result of `Device::new_from`: `Ok(None)` (non-disk), `Ok(Some(device))`,
the propagated GPT read/parse `Err`, or a Rust panic (`unwrap` failure or
out-of-range partition number in `set_used`). -/
inductive NewFromResult where
  | skip
  | dev : Device → NewFromResult
  | gptError
  | panicked
deriving DecidableEq, Repr

/-- The per-child step of `Device::new_from`'s `filter_map` building the
partition table and seeding the number pool (`set_used(number - 1)`);
`none` models the panic on a zero or out-of-range partition number. -/
def newFromStep (sector_size : Nat) (is_gpt : Bool)
    (acc : Option (List MemTableEntry × NumberPool)) (c : ChildBlockDevice) :
    Option (List MemTableEntry × NumberPool) :=
  match acc with
  | none => none
  | some (tbl, pool) =>
    if c.mountpoint.isSome then some (tbl, pool)
    else
      match MemPartition.from_raw c sector_size is_gpt with
      | none => some (tbl, pool)
      | some part =>
        if part.number = 0 then none
        else
          match pool.set_used (part.number - 1) with
          | none => none
          | some pool => some (tbl ++ [MemTableEntry.Partition part], pool)

/-- `Device::new_from` (file `src/tui/data/partition/impls.rs`), with the
external GPT header read modelled by `gptRead path sector_size`, returning
`(first_usable_lba, last_usable_lba)` or `none` on a read/parse failure. -/
def Device.new_from (gptRead : String → Nat → Option (Nat × Nat))
    (dev : BlockDevice) : NewFromResult :=
  if dev.devtype ≠ "disk" then .skip
  else
    match dev.model with
    | none => .panicked
    | some model0 =>
      let model := String.mk (trimChars model0.toList)
      let path := dev.path
      let size := dev.size
      let sector_size := dev.log_sec
      let table : Option String :=
        match dev.pttype with
        | some t => if t = "gpt" ∨ t = "dos" then some t else none
        | none => none
      match table with
      | none =>
        .dev (.Incompatible
          { model := model, path := path, size := size, sector_size := sector_size })
      | some table =>
        match dev.ptuuid with
        | none => .panicked
        | some id =>
          let is_gpt := table = "gpt"
          let bounds : Option (Nat × Nat) :=
            if is_gpt then
              match gptRead path sector_size with
              | none => none
              | some (first_usable, last_usable) =>
                some (first_usable - 1, last_usable + 1)
            else some (0, size / sector_size)
          match bounds with
          | none => .gptError
          | some (starting_lba, ending_lba) =>
            let disk : Disk :=
              { model := model, path := path, id := id, size := size,
                sector_size := sector_size, starting_lba := starting_lba,
                ending_lba := ending_lba, is_gpt := is_gpt }
            match (dev.children.getD []).foldl
                (newFromStep sector_size is_gpt) (some ([], NumberPool.new)) with
            | none => .panicked
            | some (mem_table, number_pool) =>
              .dev (.Compatible (CompatDevice.fill_free_space
                { disk := disk, mem_table := mem_table,
                  number_pool := number_pool, modification_map := [] }))

/-- Result of `get_devices`: the classified list, the short-circuited
`Err` of `collect::<Result<_>>` (a GPT read failure), or a panic. -/
inductive GetDevicesResult where
  | ok : List Device → GetDevicesResult
  | err
  | panicked
deriving DecidableEq, Repr

/-- The classification loop of `get_devices` (file
`src/tui/data/partition.rs`): `filter_map` over `Device::new_from` followed
by `collect::<Result<Vec<_>>>`, which stops at the first error. -/
def get_devices (gptRead : String → Nat → Option (Nat × Nat)) :
    List BlockDevice → GetDevicesResult
  | [] => .ok []
  | d :: rest =>
    match Device.new_from gptRead d with
    | .skip => get_devices gptRead rest
    | .dev dv =>
      match get_devices gptRead rest with
      | .ok devs => .ok (dv :: devs)
      | e => e
    | .gptError => .err
    | .panicked => .panicked

/-! ## Number pool lemmas -/

lemma findAvailAux_some (l : List Bool) (n : Nat) (l' : List Bool)
    (h : findAvailAux l = (some n, l')) :
    1 ≤ n ∧ n ≤ l.length ∧ l[n - 1]? = some false ∧
      (∀ m, m + 1 < n → l[m]? = some true) ∧ l' = l.set (n - 1) true := by
  induction l generalizing n l' with
  | nil => simp [findAvailAux] at h
  | cons b rest ih =>
    rcases hr : findAvailAux rest with ⟨o, rest'⟩
    by_cases hb : b
    · subst hb
      simp only [findAvailAux, hr, if_true] at h
      cases o with
      | none => simp at h
      | some n0 =>
        simp only [Option.map_some', Prod.mk.injEq, Option.some.injEq] at h
        obtain ⟨hn, hl'⟩ := h
        obtain ⟨h1, h2, h3, h4, h5⟩ := ih n0 rest' hr
        obtain ⟨k, rfl⟩ : ∃ k, n0 = k + 1 := ⟨n0 - 1, by omega⟩
        subst hn
        refine ⟨by omega, by simpa using by omega, ?_, ?_, ?_⟩
        · simpa using h3
        · intro m hm
          cases m with
          | zero => simp
          | succ m' =>
            simpa using h4 m' (by omega)
        · subst hl'
          simpa using h5
    · have hb' : b = false := by simpa using hb
      subst hb'
      simp only [findAvailAux, if_false, Prod.mk.injEq, Option.some.injEq,
        Bool.false_eq_true] at h
      obtain ⟨hn, hl'⟩ := h
      subst hn
      subst hl'
      exact ⟨le_refl 1, by simp, by simp, by omega, rfl⟩

lemma findAvailAux_none (l : List Bool) :
    (findAvailAux l).1 = none ↔ ∀ b ∈ l, b = true := by
  induction l with
  | nil => simp [findAvailAux]
  | cons b rest ih =>
    by_cases hb : b
    · subst hb
      simp only [findAvailAux, if_true]
      simp only [Option.map_eq_none'] at *
      simpa using ih
    · have hb' : b = false := by simpa using hb
      subst hb'
      simp [findAvailAux]

set_option maxRecDepth 8192 in
/-- Claim C9: `NumberPool::find_available_num` returns the lowest 1-based
number whose slot is unused and marks exactly that slot used; it returns
`none` exactly when every slot is used; on a fresh pool it returns `1`,
and on a fully used 256-slot pool it returns `none`. -/
theorem numberPool_find_available_spec (p : NumberPool) :
    (∀ n pool, p.find_available_num = (some n, pool) →
       1 ≤ n ∧ n ≤ p.inner.length ∧ p.inner[n - 1]? = some false ∧
       (∀ m, m + 1 < n → p.inner[m]? = some true) ∧
       pool.inner = p.inner.set (n - 1) true) ∧
    ((p.find_available_num).1 = none ↔ ∀ b ∈ p.inner, b = true) ∧
    (NumberPool.new.find_available_num).1 = some 1 ∧
    ((NumberPool.mk (List.replicate 256 true)).find_available_num).1 = none := by
  refine ⟨?_, ?_, by decide, by decide⟩
  · intro n pool h
    have h' : findAvailAux p.inner = (some n, pool.inner) := by
      simp only [NumberPool.find_available_num, Prod.mk.injEq] at h
      obtain ⟨h1, h2⟩ := h
      have := congrArg NumberPool.inner h2
      exact Prod.ext h1 this
    obtain ⟨h1, h2, h3, h4, h5⟩ := findAvailAux_some p.inner n pool.inner h'
    exact ⟨h1, h2, h3, h4, h5⟩
  · simpa [NumberPool.find_available_num] using findAvailAux_none p.inner

set_option maxRecDepth 8192 in
/-- Witness for C9: the pool `[true, false, true]` allocates number 2,
whose slot was unused; a fresh pool allocates 1. -/
theorem numberPool_find_available_spec_witness :
    (NumberPool.mk [true, false, true]).inner[2 - 1]? = some false ∧
    (NumberPool.new.find_available_num).1 = some 1 :=
  ⟨((numberPool_find_available_spec (NumberPool.mk [true, false, true])).1 2
      (NumberPool.mk [true, true, true]) (by decide)).2.2.1,
   (numberPool_find_available_spec NumberPool.new).2.2.1⟩

/-! ## Claim C1: number-pool/region synchronization on delete -/

/-- Failing input for C1: a device whose only partition (number 1, pool
slot 0) sits at mem-table index 1, after a `Free` region. -/
def c1_dev : CompatDevice :=
  { disk :=
      { model := "QEMU HARDDISK", path := "/dev/sda", id := "d1", size := 536870912,
        sector_size := 512, starting_lba := 2047, ending_lba := 1048576, is_gpt := true }
    mem_table :=
      [.Free { start := 2048, «end» := 4095, sectors := 2048, size := 1048576 },
       .Partition
         { number := 1, start := 4096, «end» := 1048575,
           sectors := 1044480, size := 534773760 }]
    number_pool := ⟨(List.replicate 256 false).set 0 true⟩ }

set_option maxRecDepth 8192 in
/-- Claim C1 (evaluation at the failing input): deleting the partition at
selected index 1 — the only partition, numbered 1 — leaves no `Partition`
region, yet pool slot 0 (number 1) is still marked used and slot 1
(number 2) was cleared instead: `handle_delete` passes the *region index*
to `set_unused`, not `number - 1`, so the used-number set `{1}` no longer
equals the partition-number set `{}`. -/
theorem delete_releases_wrong_pool_slot :
    (handle_delete 1 c1_dev).map
        (fun d => (partsOf d.mem_table, d.number_pool.inner[0]?, d.number_pool.inner[1]?)) =
      some ([], some true, some false) := by decide

/-! ## Claim C2: idempotence of free-space computation -/

/-- Counterexample device for C2 as stated: one partition, no `Free`
regions yet (exactly the state on which the classifier invokes
`fill_free_space`). -/
def c2_dev : CompatDevice :=
  { disk :=
      { model := "QEMU HARDDISK", path := "/dev/sda", id := "d2", size := 536870912,
        sector_size := 512, starting_lba := 2047, ending_lba := 1048576, is_gpt := true }
    mem_table :=
      [.Partition { number := 1, start := 4096, «end» := 8191, sectors := 4096, size := 2097152 }]
    number_pool := ⟨(List.replicate 256 false).set 0 true⟩ }

set_option maxRecDepth 8192 in
/-- Counterexample for C2 as stated: running `fill_free_space` twice on
`c2_dev` does not yield the same regions *sequence* as running it once
(one run sorts to `[Free, Partition, Free]`; the second run rebuilds
`[Partition, Free, Free]` and skips the re-sort because the count did not
change). -/
theorem fill_free_space_not_sequence_idempotent :
    (c2_dev.fill_free_space.fill_free_space).mem_table ≠
      c2_dev.fill_free_space.mem_table := by decide

/-! ## Claim C5: alignment of produced free regions -/

/-- Closed form of `gapFree`: the gap `(s, e)` is dropped exactly when the
raw sector count minus the alignment padding saturates to zero, and the
surviving region starts at `(s / 2048 + 1) * 2048`. -/
lemma gapFree_eq (σ s e : Nat) :
    gapFree σ (s, e) =
      if (e - s - 1) - ((s / 2048 + 1) * 2048 - (s + 1)) = 0 then none
      else
        some { start := (s / 2048 + 1) * 2048, «end» := e - 1,
               sectors := (e - s - 1) - ((s / 2048 + 1) * 2048 - (s + 1)),
               size := ((e - s - 1) - ((s / 2048 + 1) * 2048 - (s + 1))) * σ } := by
  simp only [gapFree, DEFAULT_ALIGN]
  by_cases h1 : e - s - 1 = 0
  · rw [if_pos h1, if_pos (by omega)]
  · rw [if_neg h1]
    by_cases h2 : (e - s - 1) - ((s / 2048 + 1) * 2048 - (s + 1)) = 0
    · rw [if_pos h2, if_pos h2]
    · rw [if_neg h2, if_neg h2]
      simp only [Option.some.injEq, DiskSpace.mk.injEq, and_true, true_and]
      omega

/-- Closed form of `remainderSpace` for `start ≥ 1` (in the create path
`start = partition.end + 1 ≥ 1`): the leftover is dropped exactly when
its sector count minus the alignment padding saturates to zero, and the
surviving region starts at `((start - 1) / 2048 + 1) * 2048`. -/
lemma remainderSpace_eq (σ start hi rem : Nat) (h : 1 ≤ start) :
    remainderSpace σ start hi rem =
      if rem - (((start - 1) / 2048 + 1) * 2048 - start) = 0 then none
      else
        some { start := ((start - 1) / 2048 + 1) * 2048, «end» := hi,
               sectors := rem - (((start - 1) / 2048 + 1) * 2048 - start),
               size := (rem - (((start - 1) / 2048 + 1) * 2048 - start)) * σ } := by
  simp only [remainderSpace, DEFAULT_ALIGN]
  by_cases h2 : rem - (((start - 1) / 2048 + 1) * 2048 - start) = 0
  · rw [if_neg (by omega), if_pos h2]
  · rw [if_pos (by omega), if_neg h2]
    simp only [Option.some.injEq, DiskSpace.mk.injEq, and_true, true_and]
    omega

/-- Claim C5: every `Free` region produced by a gap of the free-space
computation starts at a multiple of `DEFAULT_ALIGN` (2048), and that start
is the smallest such multiple that is ≥ the gap's first usable sector
`gap_start + 1`; a gap is dropped (`none`) exactly when its raw sector
count minus the alignment padding, saturating at zero, is zero.  The same
alignment holds for the remainder region of the create path, whose first
usable sector is the `start` argument (`partition.end + 1 ≥ 1`). -/
theorem free_space_alignment (σ s e sectorSize start hi rem : Nat)
    (hstart : 1 ≤ start) :
    (∀ f, gapFree σ (s, e) = some f →
       f.start % DEFAULT_ALIGN = 0 ∧ s + 1 ≤ f.start ∧
       (∀ m, m % DEFAULT_ALIGN = 0 → s + 1 ≤ m → f.start ≤ m)) ∧
    (gapFree σ (s, e) = none ↔
       (e - s - 1) - ((s / DEFAULT_ALIGN + 1) * DEFAULT_ALIGN - (s + 1)) = 0) ∧
    (∀ f, remainderSpace sectorSize start hi rem = some f →
       f.start % DEFAULT_ALIGN = 0 ∧ start ≤ f.start ∧
       (∀ m, m % DEFAULT_ALIGN = 0 → start ≤ m → f.start ≤ m)) := by
  refine ⟨?_, ?_, ?_⟩
  · intro f hf
    rw [gapFree_eq] at hf
    by_cases h2 : (e - s - 1) - ((s / 2048 + 1) * 2048 - (s + 1)) = 0
    · rw [if_pos h2] at hf
      exact absurd hf (by simp)
    · rw [if_neg h2] at hf
      simp only [Option.some.injEq] at hf
      subst hf
      simp only [DEFAULT_ALIGN]
      refine ⟨by omega, by omega, ?_⟩
      intro m hm hsm
      omega
  · rw [gapFree_eq]
    simp only [DEFAULT_ALIGN]
    by_cases h2 : (e - s - 1) - ((s / 2048 + 1) * 2048 - (s + 1)) = 0
    · rw [if_pos h2]
      simpa using h2
    · rw [if_neg h2]
      simpa using h2
  · intro f hf
    rw [remainderSpace_eq sectorSize start hi rem hstart] at hf
    by_cases h2 : rem - (((start - 1) / 2048 + 1) * 2048 - start) = 0
    · rw [if_pos h2] at hf
      exact absurd hf (by simp)
    · rw [if_neg h2] at hf
      simp only [Option.some.injEq] at hf
      subst hf
      simp only [DEFAULT_ALIGN]
      refine ⟨by omega, by omega, ?_⟩
      intro m hm hsm
      omega

/-- The free region produced by the gap `(2047, 1048576)` at sector size
512, used as the C5 witness value. -/
def c5_free : DiskSpace :=
  { start := 2048, «end» := 1048575, sectors := 1046528, size := 535822336 }

/-- Witness for C5: the gap `(2047, 1048576)` yields the free region
starting at 2048, a multiple of the alignment constant and ≥ 2048. -/
theorem free_space_alignment_witness :
    c5_free.start % DEFAULT_ALIGN = 0 ∧ 2047 + 1 ≤ c5_free.start := by
  have h := (free_space_alignment 512 2047 1048576 512 4097 1048575 100
    (by decide)).1 c5_free (by decide)
  exact ⟨h.1, h.2.1⟩

/-! ## Claim C2 (amended): idempotence up to permutation -/

lemma partsOf_perm {l1 l2 : List MemTableEntry} (h : l1.Perm l2) :
    (partsOf l1).Perm (partsOf l2) :=
  h.filterMap _

lemma partsOf_append (l1 l2 : List MemTableEntry) :
    partsOf (l1 ++ l2) = partsOf l1 ++ partsOf l2 :=
  List.filterMap_append l1 l2 _

lemma partsOf_filter_isPartition (l : List MemTableEntry) :
    partsOf (l.filter MemTableEntry.isPartition) = partsOf l := by
  induction l with
  | nil => rfl
  | cons e rest ih =>
    cases e with
    | Partition p =>
      simpa [partsOf, MemTableEntry.isPartition, List.filter_cons] using ih
    | Free f =>
      simpa [partsOf, MemTableEntry.isPartition, List.filter_cons] using ih

lemma partsOf_spacesOf (disk : Disk) (entries : List MemTableEntry) :
    partsOf (spacesOf disk entries) = [] := by
  unfold spacesOf
  generalize chunks2 (List.insertionSort (· ≤ ·) (positionsOf disk entries)) = cs
  induction cs with
  | nil => rfl
  | cons c rest ih =>
    cases h : gapFree disk.sector_size c with
    | none => simpa [List.filterMap_cons, h] using ih
    | some s => simpa [List.filterMap_cons, h, partsOf] using ih

lemma filter_isPartition_spacesOf (disk : Disk) (entries : List MemTableEntry) :
    (spacesOf disk entries).filter MemTableEntry.isPartition = [] := by
  unfold spacesOf
  generalize chunks2 (List.insertionSort (· ≤ ·) (positionsOf disk entries)) = cs
  induction cs with
  | nil => rfl
  | cons c rest ih =>
    cases h : gapFree disk.sector_size c with
    | none => simpa [List.filterMap_cons, h] using ih
    | some s =>
      simpa [List.filterMap_cons, h, List.filter_cons, MemTableEntry.isPartition]
        using ih

lemma positionsOf_perm (disk : Disk) {e1 e2 : List MemTableEntry}
    (h : (partsOf e1).Perm (partsOf e2)) :
    (positionsOf disk e1).Perm (positionsOf disk e2) := by
  unfold positionsOf
  exact ((List.Perm.flatMap_right _ h).append (List.Perm.refl _)).cons _

lemma sorted_positions_congr (disk : Disk) {e1 e2 : List MemTableEntry}
    (h : (partsOf e1).Perm (partsOf e2)) :
    List.insertionSort (· ≤ ·) (positionsOf disk e1) =
      List.insertionSort (· ≤ ·) (positionsOf disk e2) := by
  refine List.eq_of_perm_of_sorted ?_
    (List.sorted_insertionSort _ _) (List.sorted_insertionSort _ _)
  exact ((List.perm_insertionSort _ _).trans (positionsOf_perm disk h)).trans
    (List.perm_insertionSort _ _).symm

lemma spacesOf_congr (disk : Disk) {e1 e2 : List MemTableEntry}
    (h : (partsOf e1).Perm (partsOf e2)) :
    spacesOf disk e1 = spacesOf disk e2 := by
  unfold spacesOf
  rw [sorted_positions_congr disk h]

lemma fill_free_space_disk (dev : CompatDevice) :
    (dev.fill_free_space).disk = dev.disk := rfl

lemma fill_free_space_mem_table_perm (dev : CompatDevice) :
    (dev.fill_free_space).mem_table.Perm
      (dev.mem_table.filter MemTableEntry.isPartition ++
        spacesOf dev.disk dev.mem_table) := by
  unfold CompatDevice.fill_free_space
  dsimp only
  split
  · exact List.perm_insertionSort _ _
  · exact List.Perm.refl _

/-- Claim C2 (amended): running `fill_free_space` twice on an unchanged
partition set yields the same regions as running it once *as a multiset* —
in particular exactly the same `Free` regions — but not necessarily in the
same sequence order, because the second run skips the re-sort (the region
count no longer changes). -/
theorem fill_free_space_idempotent_upto_perm (dev : CompatDevice) :
    ((dev.fill_free_space).fill_free_space).mem_table.Perm
      (dev.fill_free_space).mem_table := by
  have hA1 := fill_free_space_mem_table_perm dev
  have hparts1 :
      (partsOf (dev.fill_free_space).mem_table).Perm (partsOf dev.mem_table) := by
    refine (partsOf_perm hA1).trans ?_
    rw [partsOf_append, partsOf_filter_isPartition, partsOf_spacesOf,
      List.append_nil]
  have hspaces :
      spacesOf dev.disk (dev.fill_free_space).mem_table =
        spacesOf dev.disk dev.mem_table :=
    spacesOf_congr dev.disk hparts1
  have hA2 := fill_free_space_mem_table_perm dev.fill_free_space
  rw [fill_free_space_disk, hspaces] at hA2
  refine hA2.trans (.trans ?_ hA1.symm)
  refine List.Perm.append ?_ (List.Perm.refl _)
  refine (hA1.filter _).trans ?_
  rw [List.filter_append, List.filter_filter, filter_isPartition_spacesOf,
    List.append_nil]
  simp

/-! ## Claim C6: create rejects without mutation -/

/-- Claim C6 (amended): on a selected `Free` region, with trimmed input
that is neither `"*"` nor empty, `handle_create` reports `InvalidSize`
when the resolved sector count is 0, `OverSize` when it exceeds the free
region's sector count, and `ParseSize` when the text does not resolve; in
each case the device (its `mem_table`, `number_pool` and `disk`) is
returned completely unchanged.  The empty-after-trim exclusion is forced:
on a whitespace-only request the source panics on the `unwrap` of the last
character instead of reporting the parse error (see the counterexample). -/
theorem create_error_no_mutation (pbs : List Char → Option Nat)
    (input0 : List Char) (selected : Nat) (dev : CompatDevice)
    (space : DiskSpace)
    (hsel : getFreeAt dev.mem_table selected = some space)
    (hstar : trimChars input0 ≠ ['*'])
    (hne : trimChars input0 ≠ []) :
    (resolveSectors pbs dev.disk.sector_size (trimChars input0) = some 0 →
       handle_create pbs input0 selected dev = (.errInvalidSize, dev)) ∧
    (∀ n, resolveSectors pbs dev.disk.sector_size (trimChars input0) = some n →
       space.sectors < n →
       handle_create pbs input0 selected dev = (.errOverSize, dev)) ∧
    (resolveSectors pbs dev.disk.sector_size (trimChars input0) = none →
       handle_create pbs input0 selected dev = (.errParseSize, dev)) := by
  obtain ⟨c, hc⟩ : ∃ c, (trimChars input0).getLast? = some c := by
    cases hl : (trimChars input0).getLast? with
    | some c => exact ⟨c, rfl⟩
    | none => exact absurd (by simpa using hl) hne
  refine ⟨?_, ?_, ?_⟩
  · intro h0
    simp [handle_create, hsel, if_neg hstar, hc, h0]
  · intro n hn hlt
    have hn0 : ¬ n = 0 := by omega
    simp [handle_create, hsel, if_neg hstar, hc, hn, hn0, if_pos hlt]
  · intro h0
    simp [handle_create, hsel, if_neg hstar, hc, h0]

/-- Concrete device for the C6 witness: one free region then one
partition. -/
def c6_dev : CompatDevice :=
  { disk :=
      { model := "QEMU HARDDISK", path := "/dev/sda", id := "d6", size := 536870912,
        sector_size := 512, starting_lba := 2047, ending_lba := 1048576, is_gpt := true }
    mem_table :=
      [.Free { start := 2048, «end» := 4095, sectors := 2048, size := 1048576 },
       .Partition { number := 1, start := 4096, «end» := 8191, sectors := 4096, size := 2097152 }]
    number_pool := ⟨(List.replicate 256 false).set 0 true⟩ }

set_option maxRecDepth 8192 in
/-- Witness for C6: the create request `"0s"` on the free region at index
0 of `c6_dev` fails with the invalid-size error and leaves the device
unchanged. -/
theorem create_error_no_mutation_witness :
    handle_create parseU64? "0s".toList 0 c6_dev = (.errInvalidSize, c6_dev) :=
  (create_error_no_mutation parseU64? "0s".toList 0 c6_dev
      { start := 2048, «end» := 4095, sectors := 2048, size := 1048576 }
      (by decide) (by decide) (by decide)).1 (by decide)

set_option maxRecDepth 8192 in
/-- Counterexample for C6 as stated: the whitespace-only create request
`"   "` — unparsable text — does not fail with the parse error; the source
panics on `input.char_indices().last().unwrap()` (the trimmed input is
empty) before any parse is attempted. -/
theorem create_whitespace_panics_counterexample :
    handle_create parseU64? "   ".toList 0 c6_dev = (.panic, c6_dev) ∧
    (handle_create parseU64? "   ".toList 0 c6_dev).1 ≠ .errParseSize := by
  refine ⟨by decide, by decide⟩

/-! ## Claim C3: one device's GPT read failure -/

/-- The device count carried by an `ok` enumeration result. -/
def GetDevicesResult.okCount : GetDevicesResult → Option Nat
  | .ok l => some l.length
  | _ => none

/-- GPT reader for the C3 counterexample: fails on `/dev/sda`, succeeds on
every other device. -/
def c3_gptRead : String → Nat → Option (Nat × Nat) :=
  fun path _ => if path = "/dev/sda" then none else some (2048, 1048575)

/-- A well-formed GPT disk whose header read fails under `c3_gptRead`. -/
def c3_devA : BlockDevice :=
  { size := 536870912, log_sec := 512, path := "/dev/sda", devtype := "disk",
    model := some "QEMU HARDDISK", pttype := some "gpt", ptuuid := some "uuid-a",
    children := some [] }

/-- A well-formed GPT disk whose header read succeeds under `c3_gptRead`. -/
def c3_devB : BlockDevice :=
  { size := 536870912, log_sec := 512, path := "/dev/sdb", devtype := "disk",
    model := some "QEMU HARDDISK", pttype := some "gpt", ptuuid := some "uuid-b",
    children := some [] }

set_option maxRecDepth 8192 in
/-- Counterexample for C3 as stated: with the failing device `/dev/sda`
first, `get_devices` returns the propagated error and the healthy
`/dev/sdb` is *not* classified and returned, although on its own it
classifies fine (enumeration of `[c3_devB]` yields one device). -/
theorem gpt_read_failure_aborts_counterexample :
    get_devices c3_gptRead [c3_devA, c3_devB] = .err ∧
    (get_devices c3_gptRead [c3_devB]).okCount = some 1 := by
  constructor
  · decide
  · decide

/-- Claim C3 (amended): a GPT header read/parse failure on one device
aborts the whole enumeration — `Device::new_from` propagates the error and
the `collect::<Result<_>>` in `get_devices` short-circuits, so *no*
devices are returned, not even ones that classify cleanly. -/
theorem gpt_read_failure_aborts_enumeration
    (g : String → Nat → Option (Nat × Nat)) (ds1 : List BlockDevice)
    (d : BlockDevice) (ds2 : List BlockDevice)
    (h1 : ∀ d' ∈ ds1,
       Device.new_from g d' ≠ .gptError ∧ Device.new_from g d' ≠ .panicked)
    (hd : Device.new_from g d = .gptError) :
    get_devices g (ds1 ++ d :: ds2) = .err := by
  induction ds1 with
  | nil => simp [get_devices, hd]
  | cons a rest ih =>
    obtain ⟨ha1, ha2⟩ := h1 a (by simp)
    have ih' := ih fun d' hm => h1 d' (by simp [hm])
    simp only [List.cons_append, get_devices]
    cases hna : Device.new_from g a with
    | skip => exact ih'
    | dev dv =>
      have ih2 : get_devices g (rest.append (d :: ds2)) = GetDevicesResult.err := ih'
      rw [ih2]
    | gptError => exact absurd hna ha1
    | panicked => exact absurd hna ha2

set_option maxRecDepth 8192 in
/-- Witness for C3 (amended): instantiated at the two-device enumeration
`[c3_devB, c3_devA]` where the healthy device comes first. -/
theorem gpt_read_failure_aborts_enumeration_witness :
    get_devices c3_gptRead [c3_devB, c3_devA] = .err :=
  gpt_read_failure_aborts_enumeration c3_gptRead [c3_devB] c3_devA []
    (by decide) (by decide)

/-! ## Claim C7: delete with both neighbors free -/

lemma find_available_num_eq {p : NumberPool} {n : Nat} {pool : NumberPool}
    (h : p.find_available_num = (some n, pool)) :
    findAvailAux p.inner = (some n, pool.inner) := by
  simp only [NumberPool.find_available_num, Prod.mk.injEq] at h
  obtain ⟨h1, h2⟩ := h
  exact Prod.ext h1 (congrArg NumberPool.inner h2)

lemma set_getElem?_self {α : Type} (l : List α) (i : Nat) (v : α)
    (h : l[i]? = some v) : l.set i v = l := by
  apply List.ext_getElem?
  intro j
  rw [List.getElem?_set]
  by_cases hij : i = j
  · subst hij
    have hi : i < l.length := by
      by_contra hc
      rw [List.getElem?_eq_none_iff.mpr (by omega)] at h
      simp at h
    simp [hi, h]
  · simp [hij]

/-- Claim C8 (amended): on a `Free` region of `N` sectors whose index
neighbors are not `Free` *and whose index lies within the number pool's
slot range* (`selected < 256` in the program, where the pool always has
256 slots), a `"*"` (consume-all) create replaces that single region by
one `Partition` with the same `[start, end]` bounds and exactly `N`
sectors, inserting no leftover `Free` region (the region count is
unchanged); a subsequent delete of that partition restores the region
list exactly, with a `Free` region covering the same `[start, end]`.
The index proviso is forced: the table can hold more regions than the
pool has slots, and at an index ≥ 256 the delete step's
`set_unused(selected)` — the same index-for-number slip recorded for
C1 — indexes out of bounds and panics (see the counterexample). -/
theorem create_star_delete_roundtrip
    (pbs : List Char → Option Nat) (dev : CompatDevice) (selected : Nat)
    (space : DiskSpace) (n : Nat) (pool : NumberPool)
    (hsel : dev.mem_table[selected]? = some (.Free space))
    (hprev : (decide (1 ≤ selected) && isFreeAt dev.mem_table (selected - 1)) = false)
    (hnext : (decide (selected + 1 < dev.mem_table.length) &&
        isFreeAt dev.mem_table (selected + 1)) = false)
    (hfa : dev.number_pool.find_available_num = (some n, pool))
    (hpool : selected < dev.number_pool.inner.length) :
    (handle_create pbs ['*'] selected dev).1 = .ok ∧
    (handle_create pbs ['*'] selected dev).2.mem_table =
      dev.mem_table.set selected
        (.Partition { number := n, start := space.start, «end» := space.«end»,
                      sectors := space.sectors, size := space.size }) ∧
    (handle_create pbs ['*'] selected dev).2.mem_table.length =
      dev.mem_table.length ∧
    ∃ dev2,
      handle_delete selected (handle_create pbs ['*'] selected dev).2 = some dev2 ∧
      dev2.mem_table = dev.mem_table := by
  have hsel' : getFreeAt dev.mem_table selected = some space := by
    simp [getFreeAt, hsel]
  have hlen : selected < dev.mem_table.length := by
    by_contra hcon
    rw [List.getElem?_eq_none_iff.mpr (by omega)] at hsel
    simp at hsel
  have htrim : trimChars ['*'] = ['*'] := by decide
  have hcreate : handle_create pbs ['*'] selected dev =
      (.ok,
       { dev with
         mem_table :=
           dev.mem_table.set selected
             (.Partition { number := n, start := space.start, «end» := space.«end»,
                           sectors := space.sectors, size := space.size }),
         number_pool := pool }) := by
    simp [handle_create, hsel', htrim, hfa]
  refine ⟨by rw [hcreate], by rw [hcreate], by rw [hcreate]; simp, ?_⟩
  rw [hcreate]
  have hpl : pool.inner.length = dev.number_pool.inner.length := by
    obtain ⟨-, -, -, -, h5⟩ :=
      findAvailAux_some _ _ _ (find_available_num_eq hfa)
    rw [h5]
    simp
  have hprev1 :
      (decide (1 ≤ selected) &&
        isFreeAt (dev.mem_table.set selected
          (.Partition { number := n, start := space.start, «end» := space.«end»,
                        sectors := space.sectors, size := space.size }))
          (selected - 1)) = false := by
    by_cases h1 : 1 ≤ selected
    · have heq :
          (dev.mem_table.set selected
            (.Partition { number := n, start := space.start, «end» := space.«end»,
                          sectors := space.sectors, size := space.size }))[selected - 1]? =
            dev.mem_table[selected - 1]? := by
        rw [List.getElem?_set, if_neg (by omega)]
      simpa [isFreeAt, getFreeAt, heq, h1] using hprev
    · simp [h1]
  have hnext1 :
      (decide (selected + 1 <
          (dev.mem_table.set selected
            (.Partition { number := n, start := space.start, «end» := space.«end»,
                          sectors := space.sectors, size := space.size })).length) &&
        isFreeAt (dev.mem_table.set selected
          (.Partition { number := n, start := space.start, «end» := space.«end»,
                        sectors := space.sectors, size := space.size }))
          (selected + 1)) = false := by
    have heq :
        (dev.mem_table.set selected
          (.Partition { number := n, start := space.start, «end» := space.«end»,
                        sectors := space.sectors, size := space.size }))[selected + 1]? =
          dev.mem_table[selected + 1]? := by
      rw [List.getElem?_set, if_neg (by omega)]
    simpa [isFreeAt, getFreeAt, heq] using hnext
  have hpart1 :
      getPartAt (dev.mem_table.set selected
        (.Partition { number := n, start := space.start, «end» := space.«end»,
                      sectors := space.sectors, size := space.size })) selected =
        some { number := n, start := space.start, «end» := space.«end»,
               sectors := space.sectors, size := space.size } := by
    simp [getPartAt, List.getElem?_set, hlen]
  simp only [handle_delete, deleteEntries, hprev1, hnext1, Option.bind_eq_bind,
    bind, hpart1, Option.some_bind, NumberPool.set_unused]
  rw [if_pos (by omega)]
  refine ⟨_, rfl, ?_⟩
  show (dev.mem_table.set selected _).set selected _ = dev.mem_table
  rw [List.set_set]
  exact set_getElem?_self _ _ _ hsel

/-- Concrete device for the C8 witness: a single free region of exactly
100 sectors, fresh pool. -/
def c8_dev : CompatDevice :=
  { disk :=
      { model := "QEMU HARDDISK", path := "/dev/sda", id := "d8", size := 536870912,
        sector_size := 512, starting_lba := 2047, ending_lba := 1048576, is_gpt := true }
    mem_table := [.Free { start := 2048, «end» := 2147, sectors := 100, size := 51200 }]
    number_pool := NumberPool.new }

set_option maxRecDepth 8192 in
/-- Witness for C8: `"*"` on the 100-sector free region of `c8_dev` yields
one 100-sector partition with the same bounds and no extra region, and the
following delete restores the original region list. -/
theorem create_star_delete_roundtrip_witness :
    (handle_create parseU64? ['*'] 0 c8_dev).1 = .ok ∧
    (handle_create parseU64? ['*'] 0 c8_dev).2.mem_table =
      c8_dev.mem_table.set 0
        (.Partition { number := 1, start := 2048, «end» := 2147,
                      sectors := 100, size := 51200 }) ∧
    (handle_create parseU64? ['*'] 0 c8_dev).2.mem_table.length =
      c8_dev.mem_table.length ∧
    ∃ dev2, handle_delete 0 (handle_create parseU64? ['*'] 0 c8_dev).2 = some dev2 ∧
      dev2.mem_table = c8_dev.mem_table :=
  create_star_delete_roundtrip parseU64? c8_dev 0
    { start := 2048, «end» := 2147, sectors := 100, size := 51200 } 1
    ⟨(List.replicate 256 false).set 0 true⟩
    (by decide) (by decide) (by decide) (by decide) (by decide)

/-- One `Free`-then-`Partition` block of the C8 counterexample device. -/
def c8x_pair (i : Nat) : List MemTableEntry :=
  [.Free { start := 2048 + 8192 * i, «end» := 2048 + 8192 * i + 4095,
           sectors := 4096, size := 2097152 },
   .Partition { number := i + 1, start := 2048 + 8192 * i + 4096,
                «end» := 2048 + 8192 * i + 8191, sectors := 4096, size := 2097152 }]

/-- Counterexample device for C8 as stated: 128 `Free`/`Partition` blocks
(256 regions, partition numbers 1..128) followed by one more `Free` region
at index 256, whose left neighbor is a `Partition` and which has no right
neighbor. -/
def c8x_dev : CompatDevice :=
  { disk :=
      { model := "QEMU HARDDISK", path := "/dev/sda", id := "c8x", size := 589299712,
        sector_size := 512, starting_lba := 2047, ending_lba := 1150976, is_gpt := true }
    mem_table :=
      (List.range 128).flatMap c8x_pair ++
        [.Free { start := 1050624, «end» := 1052671, sectors := 2048, size := 1048576 }]
    number_pool := ⟨List.replicate 128 true ++ List.replicate 128 false⟩ }

set_option maxRecDepth 16384 in
/-- Counterexample for C8 as stated: the `Free` region of `c8x_dev` at
index 256 has no `Free` neighbor, and the `"*"` create on it succeeds —
but the subsequent delete does not restore a `Free` region covering the
same bounds: `set_unused(256)` indexes past the 256-slot pool and
`handle_delete` panics (`none`). -/
theorem create_star_delete_high_index_counterexample :
    isFreeAt c8x_dev.mem_table 256 = true ∧
    isFreeAt c8x_dev.mem_table 255 = false ∧
    c8x_dev.mem_table.length = 257 ∧
    (handle_create parseU64? ['*'] 256 c8x_dev).1 = .ok ∧
    handle_delete 256 (handle_create parseU64? ['*'] 256 c8x_dev).2 = none := by
  refine ⟨by decide, by decide, by decide, by decide, by decide⟩

/-! ## Claim C10: frame property of a successful create -/

lemma getFreeAt_eq_some {entries : List MemTableEntry} {i : Nat}
    {space : DiskSpace} (h : getFreeAt entries i = some space) :
    entries[i]? = some (.Free space) := by
  unfold getFreeAt at h
  cases hm : entries[i]? with
  | none => rw [hm] at h; exact absurd h (by simp)
  | some e =>
    cases e with
    | Free s =>
      rw [hm] at h
      simp only [Option.some.injEq] at h
      simp [hm, h]
    | Partition p => rw [hm] at h; exact absurd h (by simp)

lemma getElem?_insertIdx_of_lt' {α : Type} (l : List α) (x : α) (n k : Nat)
    (hk : k < n) (hn : n ≤ l.length) :
    (l.insertIdx n x)[k]? = l[k]? := by
  have hk1 : k < l.length := by omega
  have hk2 : k < (l.insertIdx n x).length := by
    rw [List.length_insertIdx _ _ hn]
    omega
  rw [List.getElem?_eq_getElem hk1, List.getElem?_eq_getElem hk2,
    List.getElem_insertIdx_of_lt _ _ _ _ hk hk1]

lemma getElem?_insertIdx_succ_of_le {α : Type} (l : List α) (x : α) (n j : Nat)
    (hn : n ≤ l.length) (hj : n ≤ j) :
    (l.insertIdx n x)[j + 1]? = l[j]? := by
  by_cases hlen : j < l.length
  · obtain ⟨k, rfl⟩ : ∃ k, j = n + k := ⟨j - n, by omega⟩
    have hk' : n + k < l.length := hlen
    have hk2 : n + k + 1 < (l.insertIdx n x).length := by
      rw [List.length_insertIdx _ _ hn]
      omega
    rw [List.getElem?_eq_getElem hk', List.getElem?_eq_getElem hk2,
      List.getElem_insertIdx_add_succ _ _ _ _ hk']
  · have h1 : l[j]? = none := List.getElem?_eq_none_iff.mpr (by omega)
    have h2 : (l.insertIdx n x)[j + 1]? = none := by
      apply List.getElem?_eq_none_iff.mpr
      rw [List.length_insertIdx _ _ hn]
      omega
    rw [h1, h2]

/-- Shape of a successful `handle_create`: the selected region was `Free`,
the disk is untouched, and the new table is either a point update at
`selected` or a point update plus one insertion at `selected + 1`. -/
lemma handle_create_ok_shape (pbs : List Char → Option Nat) (input0 : List Char)
    (selected : Nat) (dev dev' : CompatDevice)
    (h : handle_create pbs input0 selected dev = (.ok, dev')) :
    ∃ space part, dev.mem_table[selected]? = some (.Free space) ∧
      dev'.disk = dev.disk ∧
      (dev'.mem_table = dev.mem_table.set selected (.Partition part) ∨
       ∃ free, dev'.mem_table =
         (dev.mem_table.insertIdx (selected + 1) (.Free free)).set selected
           (.Partition part)) := by
  cases hsel : getFreeAt dev.mem_table selected with
  | none =>
    simp only [handle_create, hsel] at h
    exact absurd (congrArg Prod.fst h) (by simp)
  | some space =>
    simp only [handle_create, hsel] at h
    by_cases hstar : trimChars input0 = ['*']
    · rw [if_pos hstar] at h
      rcases hfa : dev.number_pool.find_available_num with ⟨o, pool⟩
      cases o with
      | none => simp [hfa] at h
      | some nn =>
        simp only [hfa, Prod.mk.injEq] at h
        obtain ⟨-, hdev'⟩ := h
        subst hdev'
        exact ⟨space, _, getFreeAt_eq_some hsel, rfl, .inl rfl⟩
    · rw [if_neg hstar] at h
      cases hlast : (trimChars input0).getLast? with
      | none =>
        simp only [hlast] at h
        exact absurd (congrArg Prod.fst h) (by simp)
      | some c =>
        simp only [hlast] at h
        cases hres2 : resolveSectors pbs dev.disk.sector_size (trimChars input0) with
        | none =>
          simp only [hres2] at h
          exact absurd (congrArg Prod.fst h) (by simp)
        | some sectors =>
          simp only [hres2] at h
          by_cases h0 : sectors = 0
          · rw [if_pos h0] at h
            exact absurd (congrArg Prod.fst h) (by simp)
          · rw [if_neg h0] at h
            by_cases hov : space.sectors < sectors
            · rw [if_pos hov] at h
              exact absurd (congrArg Prod.fst h) (by simp)
            · rw [if_neg hov] at h
              rcases hfa : dev.number_pool.find_available_num with ⟨o, pool⟩
              cases o with
              | none => simp [hfa] at h
              | some nn =>
                simp only [hfa] at h
                by_cases hrem : 0 < space.sectors - sectors
                · rw [if_pos hrem] at h
                  cases hrs : remainderSpace dev.disk.sector_size
                      (space.start + sectors - 1 + 1) space.«end»
                      (space.sectors - sectors) with
                  | none =>
                    simp only [hrs, Prod.mk.injEq] at h
                    obtain ⟨-, hdev'⟩ := h
                    subst hdev'
                    exact ⟨space, _, getFreeAt_eq_some hsel, rfl, .inl rfl⟩
                  | some free =>
                    simp only [hrs, Prod.mk.injEq] at h
                    obtain ⟨-, hdev'⟩ := h
                    subst hdev'
                    exact ⟨space, _, getFreeAt_eq_some hsel, rfl,
                      .inr ⟨free, rfl⟩⟩
                · rw [if_neg hrem] at h
                  simp only [Prod.mk.injEq] at h
                  obtain ⟨-, hdev'⟩ := h
                  subst hdev'
                  exact ⟨space, _, getFreeAt_eq_some hsel, rfl, .inl rfl⟩

/-- Claim C10: a successful create at selected index `i` leaves every
region at an index before `i` unchanged, leaves the disk metadata
unchanged, and either keeps every region after `i` at its index (no
remainder inserted, length unchanged) or shifts each of them up by exactly
one index (remainder `Free` inserted at `i + 1`, length grown by one). -/
theorem create_frame (pbs : List Char → Option Nat) (input0 : List Char)
    (selected : Nat) (dev : CompatDevice)
    (hok : (handle_create pbs input0 selected dev).1 = .ok) :
    (handle_create pbs input0 selected dev).2.disk = dev.disk ∧
    (∀ j, j < selected →
       (handle_create pbs input0 selected dev).2.mem_table[j]? =
         dev.mem_table[j]?) ∧
    (((handle_create pbs input0 selected dev).2.mem_table.length =
        dev.mem_table.length ∧
      ∀ j, selected < j →
        (handle_create pbs input0 selected dev).2.mem_table[j]? =
          dev.mem_table[j]?) ∨
     ((handle_create pbs input0 selected dev).2.mem_table.length =
        dev.mem_table.length + 1 ∧
      ∀ j, selected < j →
        (handle_create pbs input0 selected dev).2.mem_table[j + 1]? =
          dev.mem_table[j]?)) := by
  rcases hres : handle_create pbs input0 selected dev with ⟨out, dev'⟩
  rw [hres] at hok
  simp only at hok
  subst hok
  obtain ⟨space, part, hsel, hdisk, hcases⟩ :=
    handle_create_ok_shape pbs input0 selected dev dev' hres
  have hlen : selected < dev.mem_table.length := by
    by_contra hcon
    rw [List.getElem?_eq_none_iff.mpr (by omega)] at hsel
    simp at hsel
  have hsuccle : selected + 1 ≤ dev.mem_table.length := hlen
  refine ⟨hdisk, ?_, ?_⟩
  · intro j hj
    rcases hcases with h | ⟨free, h⟩
    · rw [h, List.getElem?_set, if_neg (by omega)]
    · rw [h, List.getElem?_set, if_neg (by omega)]
      exact getElem?_insertIdx_of_lt' _ _ _ _ (by omega) hsuccle
  · rcases hcases with h | ⟨free, h⟩
    · left
      refine ⟨by rw [h]; simp, ?_⟩
      intro j hj
      rw [h, List.getElem?_set, if_neg (by omega)]
    · right
      refine ⟨?_, ?_⟩
      · rw [h]
        rw [List.length_set, List.length_insertIdx _ _ hsuccle]
      · intro j hj
        rw [h, List.getElem?_set, if_neg (by omega)]
        exact getElem?_insertIdx_succ_of_le _ _ _ _ hsuccle (by omega)

/-- Concrete device for the C10 witness: one 8192-sector free region then
one partition. -/
def c10_dev : CompatDevice :=
  { disk :=
      { model := "QEMU HARDDISK", path := "/dev/sda", id := "d10", size := 536870912,
        sector_size := 512, starting_lba := 2047, ending_lba := 1048576, is_gpt := true }
    mem_table :=
      [.Free { start := 2048, «end» := 10239, sectors := 8192, size := 4194304 },
       .Partition { number := 1, start := 10240, «end» := 18431, sectors := 8192, size := 4194304 }]
    number_pool := ⟨(List.replicate 256 false).set 0 true⟩ }

set_option maxRecDepth 8192 in
/-- Witness for C10: the create request `"2048s"` on the free region at
index 0 of `c10_dev` succeeds, and the frame property holds for it. -/
theorem create_frame_witness :
    (handle_create parseU64? "2048s".toList 0 c10_dev).2.disk = c10_dev.disk ∧
    (∀ j, j < 0 →
       (handle_create parseU64? "2048s".toList 0 c10_dev).2.mem_table[j]? =
         c10_dev.mem_table[j]?) ∧
    (((handle_create parseU64? "2048s".toList 0 c10_dev).2.mem_table.length =
        c10_dev.mem_table.length ∧
      ∀ j, 0 < j →
        (handle_create parseU64? "2048s".toList 0 c10_dev).2.mem_table[j]? =
          c10_dev.mem_table[j]?) ∨
     ((handle_create parseU64? "2048s".toList 0 c10_dev).2.mem_table.length =
        c10_dev.mem_table.length + 1 ∧
      ∀ j, 0 < j →
        (handle_create parseU64? "2048s".toList 0 c10_dev).2.mem_table[j + 1]? =
          c10_dev.mem_table[j]?)) :=
  create_frame parseU64? "2048s".toList 0 c10_dev (by decide)

/-! ## Claim C4: coverage of the usable LBA range -/

/-- The inclusive end LBA of a region (spec-side helper for stating the
coverage property; both variants carry an `end` field). -/
def MemTableEntry.endLBA : MemTableEntry → Nat
  | .Free free => free.«end»
  | .Partition part => part.«end»

/-- Decidable region-coverage test: some region's `[start, end]` interval
contains `x`. -/
def coversB (entries : List MemTableEntry) (x : Nat) : Bool :=
  entries.any fun e => decide (e.start ≤ x) && decide (x ≤ e.endLBA)

/-- Propositional version of `coversB`. -/
def covers (entries : List MemTableEntry) (x : Nat) : Prop :=
  ∃ e ∈ entries, e.start ≤ x ∧ x ≤ e.endLBA

lemma coversB_eq_true_iff {entries : List MemTableEntry} {x : Nat} :
    coversB entries x = true ↔ covers entries x := by
  simp [coversB, covers, List.any_eq_true]

/-- Well-formedness of the partition list between the two sentinel
boundaries: partitions are listed in ascending order, are non-empty
(`start ≤ end`), do not overlap, and stay strictly inside
`(lo, hi)` — exactly the shape every reachable `CompatDevice` has. -/
def partsOKb : Nat → List MemPartition → Nat → Bool
  | lo, [], hi => decide (lo < hi)
  | lo, p :: ps, hi =>
    decide (lo < p.start) && decide (p.start ≤ p.«end») && partsOKb p.«end» ps hi

/-- The consecutive boundary pairs that `chunks2` extracts from the sorted
position list of a well-formed partition set. -/
def gapPairs : Nat → List MemPartition → Nat → List (Nat × Nat)
  | lo, [], hi => [(lo, hi)]
  | lo, p :: ps, hi => (lo, p.start) :: gapPairs p.«end» ps hi

lemma positions_chain (ps : List MemPartition) :
    ∀ lo hi, partsOKb lo ps hi = true →
      List.Chain' (· ≤ ·)
        (lo :: ps.flatMap (fun p => [p.start, p.«end»]) ++ [hi]) := by
  induction ps with
  | nil =>
    intro lo hi h
    simp only [partsOKb, decide_eq_true_eq] at h
    simp [List.chain'_cons, Nat.le_of_lt h]
  | cons p ps ih =>
    intro lo hi h
    simp only [partsOKb, Bool.and_eq_true, decide_eq_true_eq] at h
    obtain ⟨⟨h1, h2⟩, h3⟩ := h
    have ihc := ih p.«end» hi h3
    simp only [List.flatMap_cons, List.cons_append, List.append_assoc,
      List.chain'_cons] at ihc ⊢
    exact ⟨Nat.le_of_lt h1, h2, ihc⟩

lemma positions_sorted (ps : List MemPartition) (lo hi : Nat)
    (h : partsOKb lo ps hi = true) :
    List.Sorted (· ≤ ·)
      (lo :: ps.flatMap (fun p => [p.start, p.«end»]) ++ [hi]) :=
  List.chain'_iff_pairwise.mp (positions_chain ps lo hi h)

lemma chunks2_positions (ps : List MemPartition) :
    ∀ lo hi, chunks2 (lo :: ps.flatMap (fun p => [p.start, p.«end»]) ++ [hi]) =
      gapPairs lo ps hi := by
  induction ps with
  | nil => intro lo hi; rfl
  | cons p ps ih =>
    intro lo hi
    simp only [List.flatMap_cons, List.cons_append, List.append_assoc]
    show chunks2 (lo :: p.start :: _) = _
    rw [chunks2]
    simp only [gapPairs]
    rw [← ih p.«end» hi]
    rfl

lemma spacesOf_eq_gapPairs (disk : Disk) (entries : List MemTableEntry)
    (h : partsOKb disk.starting_lba (partsOf entries) disk.ending_lba = true) :
    spacesOf disk entries =
      (gapPairs disk.starting_lba (partsOf entries) disk.ending_lba).filterMap
        fun c => (gapFree disk.sector_size c).map MemTableEntry.Free := by
  unfold spacesOf positionsOf
  rw [List.Sorted.insertionSort_eq (positions_sorted _ _ _ h)]
  rw [chunks2_positions]

lemma gap_uncovered_bound (σ lo hi x : Nat) (hlo : lo < x) (hhi : x < hi)
    (hnc : ∀ f, gapFree σ (lo, hi) = some f →
      ¬(f.start ≤ x ∧ x ≤ f.«end»)) :
    x - lo < DEFAULT_ALIGN := by
  simp only [DEFAULT_ALIGN]
  by_cases hdrop : (hi - lo - 1) - ((lo / 2048 + 1) * 2048 - (lo + 1)) = 0
  · omega
  · have hf := hnc _ (by rw [gapFree_eq, if_neg hdrop])
    push_neg at hf
    simp only at hf
    omega

lemma mem_partsOf {p : MemPartition} {entries : List MemTableEntry} :
    p ∈ partsOf entries ↔ MemTableEntry.Partition p ∈ entries := by
  unfold partsOf
  rw [List.mem_filterMap]
  constructor
  · rintro ⟨a, ha, hfa⟩
    cases a with
    | Partition q =>
      simp only [Option.some.injEq] at hfa
      rw [← hfa]
      exact ha
    | Free f => simp at hfa
  · intro h
    exact ⟨.Partition p, h, rfl⟩

lemma gaps_cover (σ : Nat) (ps : List MemPartition) :
    ∀ lo hi x, partsOKb lo ps hi = true → lo < x → x < hi →
      (∀ p ∈ ps, ¬(p.start ≤ x ∧ x ≤ p.«end»)) →
      (∀ f ∈ (gapPairs lo ps hi).filterMap (fun c => gapFree σ c),
        ¬(f.start ≤ x ∧ x ≤ f.«end»)) →
      ∃ b, b < x ∧ x - b < DEFAULT_ALIGN ∧
        (b = lo ∨ ∃ p ∈ ps, p.start ≤ b ∧ b ≤ p.«end») := by
  induction ps with
  | nil =>
    intro lo hi x _ hlo hhi _ hfrees
    have hnc : ∀ f, gapFree σ (lo, hi) = some f →
        ¬(f.start ≤ x ∧ x ≤ f.«end») := by
      intro f hf
      exact hfrees f (List.mem_filterMap.mpr ⟨(lo, hi), by simp [gapPairs], hf⟩)
    exact ⟨lo, hlo, gap_uncovered_bound σ lo hi x hlo hhi hnc, .inl rfl⟩
  | cons p ps ih =>
    intro lo hi x hok hlo hhi hparts hfrees
    simp only [partsOKb, Bool.and_eq_true, decide_eq_true_eq] at hok
    obtain ⟨⟨h1, h2⟩, h3⟩ := hok
    by_cases hx1 : x < p.start
    · have hnc : ∀ f, gapFree σ (lo, p.start) = some f →
          ¬(f.start ≤ x ∧ x ≤ f.«end») := by
        intro f hf
        exact hfrees f
          (List.mem_filterMap.mpr ⟨(lo, p.start), by simp [gapPairs], hf⟩)
      exact ⟨lo, hlo, gap_uncovered_bound σ lo p.start x hlo hx1 hnc, .inl rfl⟩
    · by_cases hx2 : x ≤ p.«end»
      · exact absurd ⟨by omega, hx2⟩ (hparts p (List.mem_cons_self p ps))
      · have htail : ∀ f ∈ (gapPairs p.«end» ps hi).filterMap
            (fun c => gapFree σ c), ¬(f.start ≤ x ∧ x ≤ f.«end») := by
          intro f hf
          obtain ⟨c, hc1, hc2⟩ := List.mem_filterMap.mp hf
          exact hfrees f
            (List.mem_filterMap.mpr ⟨c, by simp [gapPairs, hc1], hc2⟩)
        obtain ⟨b, hb1, hb2, hb3⟩ := ih p.«end» hi x h3 (by omega) hhi
          (fun q hq => hparts q (List.mem_cons_of_mem p hq)) htail
        refine ⟨b, hb1, hb2, ?_⟩
        rcases hb3 with rfl | ⟨q, hq, hq1, hq2⟩
        · exact .inr ⟨p, List.mem_cons_self p ps, h2, le_refl _⟩
        · exact .inr ⟨q, List.mem_cons_of_mem p hq, hq1, hq2⟩

/-- Claim C4 (amended): after `fill_free_space` on a well-formed partition
set, every LBA `x` strictly inside `(starting_lba, ending_lba)` that is
not covered by any region lies fewer than `DEFAULT_ALIGN` (2048) sectors
above a point that is covered (or above the `starting_lba` sentinel
itself): the uncovered gaps are the alignment paddings, each strictly
smaller than 2048 sectors — not smaller than one sector as stated. -/
theorem fill_free_space_coverage (dev : CompatDevice)
    (hok : partsOKb dev.disk.starting_lba (partsOf dev.mem_table)
      dev.disk.ending_lba = true)
    (x : Nat) (hlo : dev.disk.starting_lba < x) (hhi : x < dev.disk.ending_lba)
    (hx : coversB (dev.fill_free_space).mem_table x = false) :
    ∃ b, b < x ∧ x - b < DEFAULT_ALIGN ∧
      (b = dev.disk.starting_lba ∨
        coversB (dev.fill_free_space).mem_table b = true) := by
  have hperm := fill_free_space_mem_table_perm dev
  have hcov_iff : ∀ y, covers (dev.fill_free_space).mem_table y ↔
      covers (dev.mem_table.filter MemTableEntry.isPartition) y ∨
        covers (spacesOf dev.disk dev.mem_table) y := by
    intro y
    unfold covers
    constructor
    · rintro ⟨e, he, h1, h2⟩
      rcases List.mem_append.mp (hperm.mem_iff.mp he) with hm | hm
      · exact .inl ⟨e, hm, h1, h2⟩
      · exact .inr ⟨e, hm, h1, h2⟩
    · rintro (⟨e, he, h1, h2⟩ | ⟨e, he, h1, h2⟩)
      · exact ⟨e, hperm.mem_iff.mpr (List.mem_append.mpr (.inl he)), h1, h2⟩
      · exact ⟨e, hperm.mem_iff.mpr (List.mem_append.mpr (.inr he)), h1, h2⟩
  have hnotcov : ¬ covers (dev.fill_free_space).mem_table x := by
    rw [← coversB_eq_true_iff, hx]
    simp
  have hparts : ∀ p ∈ partsOf dev.mem_table,
      ¬(p.start ≤ x ∧ x ≤ p.«end») := by
    rintro p hp ⟨hp1, hp2⟩
    exact hnotcov ((hcov_iff x).mpr (.inl
      ⟨.Partition p,
       List.mem_filter.mpr ⟨mem_partsOf.mp hp, rfl⟩, hp1, hp2⟩))
  have hfrees : ∀ f ∈ (gapPairs dev.disk.starting_lba (partsOf dev.mem_table)
      dev.disk.ending_lba).filterMap (fun c => gapFree dev.disk.sector_size c),
      ¬(f.start ≤ x ∧ x ≤ f.«end») := by
    rintro f hf ⟨hf1, hf2⟩
    obtain ⟨c, hc1, hc2⟩ := List.mem_filterMap.mp hf
    refine hnotcov ((hcov_iff x).mpr (.inr ⟨.Free f, ?_, hf1, hf2⟩))
    rw [spacesOf_eq_gapPairs dev.disk dev.mem_table hok]
    exact List.mem_filterMap.mpr ⟨c, hc1, by rw [hc2]; rfl⟩
  obtain ⟨b, hb1, hb2, hb3⟩ := gaps_cover dev.disk.sector_size
    (partsOf dev.mem_table) dev.disk.starting_lba dev.disk.ending_lba x
    hok hlo hhi hparts hfrees
  refine ⟨b, hb1, hb2, ?_⟩
  rcases hb3 with rfl | ⟨p, hp, hp1, hp2⟩
  · exact .inl rfl
  · refine .inr (coversB_eq_true_iff.mpr ((hcov_iff b).mpr (.inl
      ⟨.Partition p,
       List.mem_filter.mpr ⟨mem_partsOf.mp hp, rfl⟩, hp1, hp2⟩)))

/-- Counterexample device for C4 as stated: MBR-style sentinels
`(0, 1000000)`, one partition `[3000, 4000]`; alignment trimming leaves
the 1947-sector stretch `[1, 2047]` uncovered. -/
def c4_dev : CompatDevice :=
  { disk :=
      { model := "QEMU HARDDISK", path := "/dev/sdb", id := "d4", size := 512000000,
        sector_size := 512, starting_lba := 0, ending_lba := 1000000, is_gpt := false }
    mem_table :=
      [.Partition { number := 1, start := 3000, «end» := 4000, sectors := 1001, size := 512512 }]
    number_pool := ⟨(List.replicate 256 false).set 0 true⟩ }

set_option maxRecDepth 8192 in
/-- Counterexample for C4 as stated: on `c4_dev` the in-range LBAs `1` and
`2047` (a whole-sector stretch, far larger than one sector) are covered by
no region after `fill_free_space`, so the union of regions plus
sub-sector gaps does not cover `[starting_lba + 1, ending_lba - 1]`. -/
theorem coverage_subsector_counterexample :
    c4_dev.disk.starting_lba + 1 ≤ 1 ∧
    (1 : Nat) ≤ c4_dev.disk.ending_lba - 1 ∧
    (2047 : Nat) ≤ c4_dev.disk.ending_lba - 1 ∧
    coversB (c4_dev.fill_free_space).mem_table 1 = false ∧
    coversB (c4_dev.fill_free_space).mem_table 2047 = false := by decide

set_option maxRecDepth 8192 in
/-- Witness for C4 (amended): applied to `c4_dev` at the uncovered LBA 1. -/
theorem fill_free_space_coverage_witness :
    ∃ b, b < 1 ∧ 1 - b < DEFAULT_ALIGN ∧
      (b = c4_dev.disk.starting_lba ∨
        coversB (c4_dev.fill_free_space).mem_table b = true) :=
  fill_free_space_coverage c4_dev (by decide) 1 (by decide) (by decide)
    (by decide)

end Artixide
